import Mathlib

/-!
Shallow embedding of cramjam's gzip binding (src/src/gzip.rs) together with the
generic dispatch and streaming machinery that binding invokes.

The file under src/ is the thin per-codec binding: `decompress`, `compress`,
`compress_into`, `decompress_into`, the constant `DEFAULT_COMPRESSION_LEVEL`
and the streaming `Compressor` object.  The generic machinery it calls
(the `crate::generic!` dispatch macro and the `crate::io::stream_compress`,
`stream_flush`, `stream_finish` helpers) is repository code that is not under
src/, and the gzip codec itself (flate2 / libcramjam) is an external
collaborator; both are modelled here from the spec, as marked in the doc
comments of the corresponding definitions.

Byte buffers are `List Nat`; machine sizes are `Nat`.
-/

/-- A byte buffer: a list of byte values. -/
abbrev Bytes := List Nat

/-- The two error kinds of the error taxonomy exposed at the caller boundary
(`crate::exceptions::{CompressionError, DecompressionError}`), each carrying
the underlying cause message. -/
inductive PyErr where
  | compressionError (msg : String)
  | decompressionError (msg : String)
deriving DecidableEq

/-- Map the underlying codec error message into one of the two boundary error
kinds, as `CompressionError::from_err` / `DecompressionError::from_err` do in
`.map_err(...)` position in src/src/gzip.rs. -/
def mapPyErr {α : Type} (f : String → PyErr) : Except String α → Except PyErr α
  | .ok a => .ok a
  | .error m => .error (f m)

/-- Outcome of one invocation of an external codec function against a
destination buffer of a given capacity. -/
inductive CodecResult where
  | ok (written : Bytes)
  | tooSmall
  | fault (msg : String)
deriving DecidableEq

/-- Modelled from the spec: the external codec function contract (spec section 6).
A codec direction is a deterministic function from the input bytes to either a
fault or the full output it wants to write; `out` is that function.  The
buffer-level interface `run` below derives the spec's `Result<usize, CodecFault>`
behaviour from it: it never writes past the declared capacity and reports
"buffer too small" when the capacity does not suffice. -/
structure CodecFn where
  out : Bytes → Except String Bytes

/-- Invoke the codec function against a destination of capacity `cap`:
report the bytes written, a fault, or that the buffer is too small. -/
def CodecFn.run (c : CodecFn) (input : Bytes) (cap : Nat) : CodecResult :=
  match c.out input with
  | .error msg => .fault msg
  | .ok w => if w.length ≤ cap then .ok w else .tooSmall

/-- Modelled from the spec: the growth-retry loop of the Generic Codec
Dispatcher (part of the `crate::generic!` macro, not under src/).  `w` is the
(deterministic) output the codec wants to write, `cap` the current buffer
capacity, `a` the number of buffer allocations performed so far.  Whenever the
codec reports the buffer too small the capacity is doubled and the codec is
re-invoked; there is no iteration cap.  Returns the final output together with
the total number of allocations performed. -/
def growFrom (w : Bytes) (cap a : Nat) : Bytes × Nat :=
  if w.length ≤ cap then (w, a)
  else growFrom w (max 1 (2 * cap)) (a + 1)
termination_by w.length - cap
decreasing_by
  simp only [Nat.max_def]
  split <;> omega

/-- Modelled from the spec: the allocating form of the Generic Codec
Dispatcher (`crate::generic!`, not under src/).  If `output_len` is given, a
Result Buffer is pre-sized to exactly that length and treated as a fixed
destination, and the result is truncated to the bytes actually written; if it
is absent, a buffer of `hint` bytes is allocated and the growth-retry loop
runs.  The second component of the result counts buffer allocations. -/
def compress_or_decompress (c : CodecFn) (input : Bytes) (output_len : Option Nat)
    (hint : Nat) : Except String (Bytes × Nat) :=
  match output_len with
  | some n =>
    match c.run input n with
    | .ok w => .ok (w, 1)
    | .tooSmall => .error "destination buffer is too small"
    | .fault m => .error m
  | none =>
    match c.out input with
    | .error msg => .error msg
    | .ok w => .ok (growFrom w (max 1 hint) 1)

/-- Modelled from the spec: the into-buffer form of the Generic Codec
Dispatcher (`crate::generic!`, not under src/).  The codec is invoked directly
against the caller-supplied destination, whose capacity is its length; no
allocation is performed, a too-small destination is an error, and on success
the written bytes overwrite the prefix of the destination.  Returns the byte
count written together with the new contents of the destination buffer. -/
def compress_or_decompress_into (c : CodecFn) (input output : Bytes) :
    Except String (Nat × Bytes) :=
  match c.run input output.length with
  | .ok w => .ok (w.length, w ++ output.drop w.length)
  | .tooSmall => .error "destination buffer is too small"
  | .fault m => .error m

/-- Modelled from the spec: a fixed small initial buffer size used as the
growth-path heuristic for compression when no `output_len` is given. -/
def compressionSizeHint : Nat := 32

/-- Modelled from the spec: an initial buffer size proportional to the input
length, used as the growth-path heuristic for decompression when no
`output_len` is given. -/
def decompressionSizeHint (input : Bytes) : Nat := 2 * input.length

/-- Modelled from the spec: the gzip codec pair (libcramjam::gzip backed by
flate2), an external collaborator abstracted as a pure compression function
from level and input to the compressed bytes, together with a partial inverse
for decompression. -/
structure GzipCodec where
  compressOut : Nat → Bytes → Bytes
  decompressOut : Bytes → Except String Bytes

/-- The codec-function view of gzip compression at a given level. -/
def GzipCodec.compressFn (g : GzipCodec) (level : Nat) : CodecFn :=
  ⟨fun input => .ok (g.compressOut level input)⟩

/-- The codec-function view of gzip decompression. -/
def GzipCodec.decompressFn (g : GzipCodec) : CodecFn :=
  ⟨g.decompressOut⟩

/-- The round-trip contract of the external gzip codec: decompression inverts
compression at every level. -/
def GzipCodec.RoundTrip (g : GzipCodec) : Prop :=
  ∀ level input, g.decompressOut (g.compressOut level input) = Except.ok input

/-- A trivial concrete codec satisfying the external codec contract, used to
instantiate parametric theorems at concrete inputs. -/
def idCodec : GzipCodec where
  compressOut := fun _ input => input
  decompressOut := fun b => .ok b

namespace gzip

/-- src/src/gzip.rs line 15. -/
def DEFAULT_COMPRESSION_LEVEL : Nat := 6

/-- `gzip::decompress` (src/src/gzip.rs lines 26-29), kept with its allocation
count: dispatch through the generic allocating form and map every failure to
`DecompressionError`. -/
def decompressRaw (g : GzipCodec) (data : Bytes) (output_len : Option Nat) :
    Except PyErr (Bytes × Nat) :=
  mapPyErr PyErr.decompressionError
    (compress_or_decompress g.decompressFn data output_len (decompressionSizeHint data))

/-- `gzip::decompress` as the caller sees it: the returned buffer contents. -/
def decompress (g : GzipCodec) (data : Bytes) (output_len : Option Nat) :
    Except PyErr Bytes :=
  (decompressRaw g data output_len).map Prod.fst

/-- `gzip::compress` (src/src/gzip.rs lines 40-48), kept with its allocation
count: dispatch through the generic allocating form at the requested level
(default 6 when unspecified) and map every failure to `CompressionError`. -/
def compressRaw (g : GzipCodec) (data : Bytes) (level : Option Nat)
    (output_len : Option Nat) : Except PyErr (Bytes × Nat) :=
  mapPyErr PyErr.compressionError
    (compress_or_decompress (g.compressFn (level.getD DEFAULT_COMPRESSION_LEVEL))
      data output_len compressionSizeHint)

/-- `gzip::compress` as the caller sees it: the returned buffer contents. -/
def compress (g : GzipCodec) (data : Bytes) (level : Option Nat)
    (output_len : Option Nat) : Except PyErr Bytes :=
  (compressRaw g data level output_len).map Prod.fst

/-- `gzip::compress_into` (src/src/gzip.rs lines 53-55): compress directly
into the caller-supplied output buffer; returns the bytes written together
with the new contents of that buffer. -/
def compress_into (g : GzipCodec) (input output : Bytes) (level : Option Nat) :
    Except PyErr (Nat × Bytes) :=
  mapPyErr PyErr.compressionError
    (compress_or_decompress_into (g.compressFn (level.getD DEFAULT_COMPRESSION_LEVEL))
      input output)

/-- `gzip::decompress_into` (src/src/gzip.rs lines 59-61): decompress directly
into the caller-supplied output buffer; returns the bytes written together
with the new contents of that buffer. -/
def decompress_into (g : GzipCodec) (input output : Bytes) :
    Except PyErr (Nat × Bytes) :=
  mapPyErr PyErr.decompressionError
    (compress_or_decompress_into g.decompressFn input output)

/-- Modelled from the spec: the external streaming gzip encoder
(`flate2::write::GzEncoder<Cursor<Vec<u8>>>`).  It records the codec, the
level it was opened with, all input fed so far, and the internal sink.  The
byte-level content an intermediate flush would place in the sink is
codec-internal and not modelled; finalizing emits the sink followed by the
one-shot compression of everything fed. -/
structure GzEncoder where
  codec : GzipCodec
  level : Nat
  fed : Bytes
  sink : Bytes

/-- The streaming `Compressor` object (src/src/gzip.rs lines 64-67): an
optional encoder, `none` once the instance has been consumed by `finish`. -/
structure Compressor where
  inner : Option GzEncoder

end gzip

namespace io

/-- Modelled from the spec: `crate::io::stream_compress` (not under src/).
Feeding a chunk is valid only while an encoder is present; the chunk is
forwarded to the encoder and the count of bytes consumed is returned.  On a
consumed instance it fails with the compression error kind. -/
def stream_compress (inner : Option gzip.GzEncoder) (input : Bytes) :
    Except PyErr (Nat × Option gzip.GzEncoder) :=
  match inner with
  | some e => .ok (input.length, some { e with fed := e.fed ++ input })
  | none => .error (PyErr.compressionError "Compressor has already been consumed")

/-- Modelled from the spec: `crate::io::stream_flush` (not under src/).
Valid only while an encoder is present: drains the internal sink and resets it
to empty, without changing state.  On a consumed instance it fails with the
compression error kind. -/
def stream_flush (inner : Option gzip.GzEncoder) :
    Except PyErr (Bytes × Option gzip.GzEncoder) :=
  match inner with
  | some e => .ok (e.sink, some { e with sink := [] })
  | none => .error (PyErr.compressionError "Compressor has already been consumed")

/-- Modelled from the spec: `crate::io::stream_finish` (not under src/).
Valid only while an encoder is present: consumes the encoder, finalizing the
stream, and returns the sink followed by the finalized output; afterwards the
instance holds no encoder.  On a consumed instance it fails with the
compression error kind. -/
def stream_finish (inner : Option gzip.GzEncoder) :
    Except PyErr (Bytes × Option gzip.GzEncoder) :=
  match inner with
  | some e => .ok (e.sink ++ e.codec.compressOut e.level e.fed, none)
  | none => .error (PyErr.compressionError "Compressor has already been consumed")

end io

namespace gzip

/-- `Compressor::__init__` (src/src/gzip.rs lines 72-81): always returns a
fresh `Ready` instance at the requested level (default 6), with no validation
of the level. -/
def Compressor.__init__ (g : GzipCodec) (level : Option Nat) :
    Except PyErr Compressor :=
  .ok { inner := some { codec := g, level := level.getD DEFAULT_COMPRESSION_LEVEL,
                        fed := [], sink := [] } }

/-- `Compressor::compress` (src/src/gzip.rs lines 84-86): feed a chunk via
`stream_compress`; state passing models the `&mut self` mutation. -/
def Compressor.compress (self : Compressor) (input : Bytes) :
    Except PyErr (Nat × Compressor) :=
  (io.stream_compress self.inner input).map (fun p => (p.1, { inner := p.2 }))

/-- `Compressor::flush` (src/src/gzip.rs lines 89-91). -/
def Compressor.flush (self : Compressor) : Except PyErr (Bytes × Compressor) :=
  (io.stream_flush self.inner).map (fun p => (p.1, { inner := p.2 }))

/-- `Compressor::finish` (src/src/gzip.rs lines 95-97). -/
def Compressor.finish (self : Compressor) : Except PyErr (Bytes × Compressor) :=
  (io.stream_finish self.inner).map (fun p => (p.1, { inner := p.2 }))

/-- Feed a list of chunks to a `Compressor` in order, threading the state. -/
def feedAll (self : Compressor) (chunks : List Bytes) : Except PyErr Compressor :=
  match chunks with
  | [] => .ok self
  | c :: rest => (self.compress c) >>= fun p => feedAll p.2 rest

end gzip

/-! ## Helper lemmas -/

theorem growFrom_of_le (w : Bytes) (cap a : Nat) (h : w.length ≤ cap) :
    growFrom w cap a = (w, a) := by
  rw [growFrom]
  simp [h]

theorem growFrom_step (w : Bytes) (cap a : Nat) (h : cap < w.length) :
    growFrom w cap a = growFrom w (max 1 (2 * cap)) (a + 1) := by
  conv_lhs => rw [growFrom]
  simp [Nat.not_le.mpr h]

theorem growFrom_ok_of_bound (w : Bytes) :
    ∀ fuel cap a, w.length ≤ cap + fuel → ∃ k, growFrom w cap a = (w, k) := by
  intro fuel
  induction fuel with
  | zero =>
    intro cap a h
    exact ⟨a, growFrom_of_le w cap a (by omega)⟩
  | succ n ih =>
    intro cap a h
    by_cases hc : w.length ≤ cap
    · exact ⟨a, growFrom_of_le w cap a hc⟩
    · rw [growFrom_step w cap a (by omega)]
      exact ih (max 1 (2 * cap)) (a + 1) (by omega)

theorem growFrom_ok (w : Bytes) (cap a : Nat) : ∃ k, growFrom w cap a = (w, k) :=
  growFrom_ok_of_bound w w.length cap a (by omega)

theorem alloc_none_ok (c : CodecFn) (input w : Bytes) (hint : Nat)
    (h : c.out input = .ok w) :
    ∃ k, compress_or_decompress c input none hint = .ok (w, k) := by
  obtain ⟨k, hk⟩ := growFrom_ok w (max 1 hint) 1
  exact ⟨k, by simp [compress_or_decompress, h, hk]⟩

theorem alloc_none_err (c : CodecFn) (input : Bytes) (m : String) (hint : Nat)
    (h : c.out input = .error m) :
    compress_or_decompress c input none hint = .error m := by
  simp [compress_or_decompress, h]

theorem alloc_some_ok (c : CodecFn) (input w : Bytes) (n hint : Nat)
    (h : c.out input = .ok w) (hn : w.length ≤ n) :
    compress_or_decompress c input (some n) hint = .ok (w, 1) := by
  simp [compress_or_decompress, CodecFn.run, h, hn]

theorem into_ok (c : CodecFn) (input output w : Bytes)
    (h : c.out input = .ok w) (hn : w.length ≤ output.length) :
    compress_or_decompress_into c input output =
      .ok (w.length, w ++ output.drop w.length) := by
  simp [compress_or_decompress_into, CodecFn.run, h, hn]

theorem mapPyErr_error_shape {α : Type} (f : String → PyErr) (x : Except String α)
    (e : PyErr) (h : mapPyErr f x = .error e) : ∃ m, x = .error m ∧ e = f m := by
  cases x with
  | ok a => simp [mapPyErr] at h
  | error m =>
    simp only [mapPyErr, Except.error.injEq] at h
    exact ⟨m, rfl, h.symm⟩

theorem gzip_compress_none_eq (g : GzipCodec) (b : Bytes) (level : Option Nat) :
    gzip.compress g b level none =
      .ok (g.compressOut (level.getD gzip.DEFAULT_COMPRESSION_LEVEL) b) := by
  obtain ⟨k, hk⟩ :=
    alloc_none_ok (g.compressFn (level.getD gzip.DEFAULT_COMPRESSION_LEVEL)) b
      (g.compressOut (level.getD gzip.DEFAULT_COMPRESSION_LEVEL) b)
      compressionSizeHint rfl
  simp [gzip.compress, gzip.compressRaw, hk, mapPyErr, Except.map]

theorem gzip_decompress_none_eq (g : GzipCodec) (b w : Bytes)
    (h : g.decompressOut b = .ok w) :
    gzip.decompress g b none = .ok w := by
  obtain ⟨k, hk⟩ := alloc_none_ok g.decompressFn b w (decompressionSizeHint b) h
  simp [gzip.decompress, gzip.decompressRaw, hk, mapPyErr, Except.map]

theorem feedAll_state (chunks : List Bytes) :
    ∀ e : gzip.GzEncoder,
      gzip.feedAll ⟨some e⟩ chunks = .ok ⟨some { e with fed := e.fed ++ chunks.flatten }⟩ := by
  induction chunks with
  | nil =>
    intro e
    simp [gzip.feedAll]
  | cons c rest ih =>
    intro e
    show (gzip.Compressor.compress ⟨some e⟩ c >>= fun p => gzip.feedAll p.2 rest) = _
    simp only [gzip.Compressor.compress, io.stream_compress, Except.map]
    show gzip.feedAll ⟨some { e with fed := e.fed ++ c }⟩ rest = _
    rw [ih]
    simp [List.append_assoc]

/-! ## Claim theorems -/

/-- C1: for every byte sequence `b` and every compression level, decompressing
the result of compressing `b` (with `output_len` unspecified) returns `b`
exactly, given the external codec's round-trip contract. -/
theorem gzip_roundtrip (g : GzipCodec) (b : Bytes) (level : Option Nat)
    (hrt : g.RoundTrip) :
    (gzip.compress g b level none >>= fun c => gzip.decompress g c none) = .ok b := by
  rw [gzip_compress_none_eq]
  show gzip.decompress g (g.compressOut (level.getD gzip.DEFAULT_COMPRESSION_LEVEL) b) none
        = .ok b
  exact gzip_decompress_none_eq g _ b (hrt _ b)

/-- Witness for C1 at the concrete codec and a concrete input. -/
theorem gzip_roundtrip_witness :
    (gzip.compress idCodec [10, 200, 30] (some 9) none >>=
      fun c => gzip.decompress idCodec c none) = .ok [10, 200, 30] :=
  gzip_roundtrip idCodec [10, 200, 30] (some 9) (fun _ _ => rfl)

/-- C2: feeding any chunking of `b` in order to a freshly constructed
`Compressor` and then calling `finish()` yields output equal to the one-shot
`compress` of the concatenation, independent of chunk boundaries. -/
theorem gzip_streaming_equivalence (g : GzipCodec) (level : Option Nat)
    (chunks : List Bytes) :
    (do
      let c0 ← gzip.Compressor.__init__ g level
      let c1 ← gzip.feedAll c0 chunks
      let r ← c1.finish
      pure r.1) = gzip.compress g chunks.flatten level none := by
  rw [gzip_compress_none_eq]
  show (gzip.feedAll
          ⟨some { codec := g, level := level.getD gzip.DEFAULT_COMPRESSION_LEVEL,
                  fed := [], sink := [] }⟩ chunks >>=
        fun c1 => c1.finish >>= fun r => pure r.1) = _
  rw [feedAll_state]
  show (gzip.Compressor.finish
          ⟨some { codec := g, level := level.getD gzip.DEFAULT_COMPRESSION_LEVEL,
                  fed := [] ++ chunks.flatten, sink := [] }⟩ >>= fun r => pure r.1) = _
  simp [gzip.Compressor.finish, io.stream_finish, Except.map]

/-- C3: once `finish()` has succeeded on a `Compressor`, the instance holds no
encoder, and every subsequent `compress`, `flush` or `finish` call on it
returns a compression-direction error. -/
theorem gzip_finish_terminal (input : Bytes) (c : gzip.Compressor) (out : Bytes)
    (c' : gzip.Compressor) (h : c.finish = .ok (out, c')) :
    c'.inner = none ∧
    (∃ m, c'.compress input = .error (PyErr.compressionError m)) ∧
    (∃ m, c'.flush = .error (PyErr.compressionError m)) ∧
    (∃ m, c'.finish = .error (PyErr.compressionError m)) := by
  cases c with
  | mk inner0 =>
    cases inner0 with
    | none =>
      exfalso
      simp [gzip.Compressor.finish, io.stream_finish, Except.map] at h
    | some e =>
      simp only [gzip.Compressor.finish, io.stream_finish, Except.map,
        Except.ok.injEq, Prod.mk.injEq] at h
      obtain ⟨-, h2⟩ := h
      cases c' with
      | mk inner1 =>
        have hn : inner1 = none := by
          have := congrArg gzip.Compressor.inner h2
          exact this.symm
        subst hn
        exact ⟨rfl, ⟨_, rfl⟩, ⟨_, rfl⟩, ⟨_, rfl⟩⟩

/-- Witness for C3: an explicit finished compressor on which all three
operations fail with the compression error kind. -/
theorem gzip_finish_terminal_witness :
    (⟨none⟩ : gzip.Compressor).inner = none ∧
    (∃ m, gzip.Compressor.compress ⟨none⟩ [7] = .error (PyErr.compressionError m)) ∧
    (∃ m, gzip.Compressor.flush ⟨none⟩ = .error (PyErr.compressionError m)) ∧
    (∃ m, gzip.Compressor.finish ⟨none⟩ = .error (PyErr.compressionError m)) :=
  gzip_finish_terminal [7]
    ⟨some { codec := idCodec, level := 6, fed := [], sink := [] }⟩ [] ⟨none⟩ rfl

theorem into_tooSmall (c : CodecFn) (input output w : Bytes)
    (h : c.out input = .ok w) (hn : output.length < w.length) :
    compress_or_decompress_into c input output =
      .error "destination buffer is too small" := by
  simp [compress_or_decompress_into, CodecFn.run, h, Nat.not_le.mpr hn]

theorem into_fault (c : CodecFn) (input output : Bytes) (m : String)
    (h : c.out input = .error m) :
    compress_or_decompress_into c input output = .error m := by
  simp [compress_or_decompress_into, CodecFn.run, h]

theorem except_map_error {α β γ : Type} (f : α → β) (x : Except γ α) (e : γ)
    (h : x.map f = .error e) : x = .error e := by
  cases x with
  | ok a => simp [Except.map] at h
  | error m => simpa [Except.map] using h

/-- C4: every failure of `decompress`/`decompress_into` is surfaced as
`DecompressionError`, every failure of `compress`/`compress_into` as
`CompressionError`, and a fault of the underlying codec is carried through
with its cause message. -/
theorem gzip_error_taxonomy (g : GzipCodec) (data out : Bytes)
    (level olen : Option Nat) :
    (∀ e, gzip.decompress g data olen = .error e →
      ∃ m, e = PyErr.decompressionError m) ∧
    (∀ e, gzip.decompress_into g data out = .error e →
      ∃ m, e = PyErr.decompressionError m) ∧
    (∀ e, gzip.compress g data level olen = .error e →
      ∃ m, e = PyErr.compressionError m) ∧
    (∀ e, gzip.compress_into g data out level = .error e →
      ∃ m, e = PyErr.compressionError m) ∧
    (∀ m, g.decompressOut data = .error m →
      gzip.decompress g data none = .error (PyErr.decompressionError m)) := by
  refine ⟨?_, ?_, ?_, ?_, ?_⟩
  · intro e he
    have h1 := except_map_error Prod.fst (gzip.decompressRaw g data olen) e he
    simp only [gzip.decompressRaw] at h1
    obtain ⟨m, -, hm⟩ := mapPyErr_error_shape _ _ _ h1
    exact ⟨m, hm⟩
  · intro e he
    simp only [gzip.decompress_into] at he
    obtain ⟨m, -, hm⟩ := mapPyErr_error_shape _ _ _ he
    exact ⟨m, hm⟩
  · intro e he
    have h1 := except_map_error Prod.fst (gzip.compressRaw g data level olen) e he
    simp only [gzip.compressRaw] at h1
    obtain ⟨m, -, hm⟩ := mapPyErr_error_shape _ _ _ h1
    exact ⟨m, hm⟩
  · intro e he
    simp only [gzip.compress_into] at he
    obtain ⟨m, -, hm⟩ := mapPyErr_error_shape _ _ _ he
    exact ⟨m, hm⟩
  · intro m hm
    have h1 := alloc_none_err g.decompressFn data m (decompressionSizeHint data) hm
    simp [gzip.decompress, gzip.decompressRaw, h1, mapPyErr, Except.map]

/-- C5: when the level is unspecified, one-shot `compress`, `compress_into`
and the streaming constructor all use the codec-defined default level 6. -/
theorem gzip_default_level (g : GzipCodec) (data out : Bytes) (olen : Option Nat) :
    gzip.DEFAULT_COMPRESSION_LEVEL = 6 ∧
    gzip.compress g data none olen = gzip.compress g data (some 6) olen ∧
    gzip.compress_into g data out none = gzip.compress_into g data out (some 6) ∧
    gzip.Compressor.__init__ g none = gzip.Compressor.__init__ g (some 6) ∧
    (∃ e : gzip.GzEncoder,
      gzip.Compressor.__init__ g none = .ok ⟨some e⟩ ∧ e.level = 6) :=
  ⟨rfl, rfl, rfl, rfl, ⟨_, rfl, rfl⟩⟩

/-- C6: when `output_len` is supplied and at least the bytes the codec writes,
the allocating forms perform exactly one buffer allocation (the pre-sized one,
never reallocated) and return exactly the bytes the codec wrote, whose length
is at most `output_len`. -/
theorem gzip_output_len_honored (g : GzipCodec) (data w : Bytes)
    (level : Option Nat) (n : Nat)
    (hc : (g.compressOut (level.getD gzip.DEFAULT_COMPRESSION_LEVEL) data).length ≤ n)
    (hd : g.decompressOut data = .ok w) (hw : w.length ≤ n) :
    gzip.compressRaw g data level (some n) =
      .ok (g.compressOut (level.getD gzip.DEFAULT_COMPRESSION_LEVEL) data, 1) ∧
    (g.compressOut (level.getD gzip.DEFAULT_COMPRESSION_LEVEL) data).length ≤ n ∧
    gzip.decompressRaw g data (some n) = .ok (w, 1) ∧
    w.length ≤ n := by
  refine ⟨?_, hc, ?_, hw⟩
  · have h1 := alloc_some_ok (g.compressFn (level.getD gzip.DEFAULT_COMPRESSION_LEVEL))
      data (g.compressOut (level.getD gzip.DEFAULT_COMPRESSION_LEVEL) data)
      n compressionSizeHint rfl hc
    simp [gzip.compressRaw, h1, mapPyErr]
  · have h1 := alloc_some_ok g.decompressFn data w n (decompressionSizeHint data) hd hw
    simp [gzip.decompressRaw, h1, mapPyErr]

/-- Witness for C6 at the concrete codec and a concrete input. -/
theorem gzip_output_len_honored_witness :
    gzip.compressRaw idCodec [1, 2, 3] (some 4) (some 5) = .ok ([1, 2, 3], 1) ∧
    ([1, 2, 3] : Bytes).length ≤ 5 ∧
    gzip.decompressRaw idCodec [1, 2, 3] (some 5) = .ok ([1, 2, 3], 1) ∧
    ([1, 2, 3] : Bytes).length ≤ 5 :=
  gzip_output_len_honored idCodec [1, 2, 3] [1, 2, 3] (some 4) 5
    (by decide) rfl (by decide)

/-- C7: when the caller-supplied output buffer has capacity at least the
allocating form's result length, `compress_into` writes exactly the bytes
`compress` returns and reports that length as bytes written. -/
theorem gzip_into_buffer_equivalence (g : GzipCodec) (b out : Bytes)
    (level : Option Nat)
    (h : (g.compressOut (level.getD gzip.DEFAULT_COMPRESSION_LEVEL) b).length ≤ out.length) :
    ∃ w : Bytes,
      gzip.compress g b level none = .ok w ∧
      ∃ out2, gzip.compress_into g b out level = .ok (w.length, out2) ∧
        out2.take w.length = w := by
  refine ⟨g.compressOut (level.getD gzip.DEFAULT_COMPRESSION_LEVEL) b,
    gzip_compress_none_eq g b level, ?_⟩
  have h1 := into_ok (g.compressFn (level.getD gzip.DEFAULT_COMPRESSION_LEVEL)) b out
    (g.compressOut (level.getD gzip.DEFAULT_COMPRESSION_LEVEL) b) rfl h
  refine ⟨g.compressOut (level.getD gzip.DEFAULT_COMPRESSION_LEVEL) b ++
      out.drop (g.compressOut (level.getD gzip.DEFAULT_COMPRESSION_LEVEL) b).length, ?_, ?_⟩
  · simp [gzip.compress_into, h1, mapPyErr]
  · exact List.take_left _ _

/-- Witness for C7 at the concrete codec and a concrete input. -/
theorem gzip_into_buffer_equivalence_witness :
    ∃ w : Bytes,
      gzip.compress idCodec [5, 6] none none = .ok w ∧
      ∃ out2, gzip.compress_into idCodec [5, 6] [0, 0, 0] none = .ok (w.length, out2) ∧
        out2.take w.length = w :=
  gzip_into_buffer_equivalence idCodec [5, 6] [0, 0, 0] none (by decide)

/-- C8: the into-buffer forms never change the declared capacity of the output
buffer (the returned contents have exactly the caller's length, with the bytes
written confined to its prefix), and a too-small output buffer yields an error
of the operation's kind instead of a silent truncated success. -/
theorem gzip_into_capacity_safety (g : GzipCodec) (input output : Bytes)
    (level : Option Nat) :
    (∀ n out2, gzip.compress_into g input output level = .ok (n, out2) →
      out2.length = output.length ∧ n ≤ output.length) ∧
    (∀ n out2, gzip.decompress_into g input output = .ok (n, out2) →
      out2.length = output.length ∧ n ≤ output.length) ∧
    (output.length <
        (g.compressOut (level.getD gzip.DEFAULT_COMPRESSION_LEVEL) input).length →
      ∃ m, gzip.compress_into g input output level =
        .error (PyErr.compressionError m)) ∧
    (∀ w, g.decompressOut input = .ok w → output.length < w.length →
      ∃ m, gzip.decompress_into g input output =
        .error (PyErr.decompressionError m)) := by
  refine ⟨?_, ?_, ?_, ?_⟩
  · intro n out2 h
    by_cases hle :
        (g.compressOut (level.getD gzip.DEFAULT_COMPRESSION_LEVEL) input).length ≤
          output.length
    · have h1 := into_ok (g.compressFn (level.getD gzip.DEFAULT_COMPRESSION_LEVEL))
        input output (g.compressOut (level.getD gzip.DEFAULT_COMPRESSION_LEVEL) input)
        rfl hle
      simp only [gzip.compress_into, h1, mapPyErr, Except.ok.injEq, Prod.mk.injEq] at h
      obtain ⟨hn, hout⟩ := h
      subst hn
      subst hout
      constructor
      · simp [List.length_append, List.length_drop]
        omega
      · exact hle
    · have h1 := into_tooSmall (g.compressFn (level.getD gzip.DEFAULT_COMPRESSION_LEVEL))
        input output (g.compressOut (level.getD gzip.DEFAULT_COMPRESSION_LEVEL) input)
        rfl (by omega)
      simp [gzip.compress_into, h1, mapPyErr] at h
  · intro n out2 h
    cases hd : g.decompressOut input with
    | error m =>
      have h1 := into_fault g.decompressFn input output m hd
      simp [gzip.decompress_into, h1, mapPyErr] at h
    | ok w =>
      by_cases hle : w.length ≤ output.length
      · have h1 := into_ok g.decompressFn input output w hd hle
        simp only [gzip.decompress_into, h1, mapPyErr, Except.ok.injEq,
          Prod.mk.injEq] at h
        obtain ⟨hn, hout⟩ := h
        subst hn
        subst hout
        constructor
        · simp [List.length_append, List.length_drop]
          omega
        · exact hle
      · have h1 := into_tooSmall g.decompressFn input output w hd (by omega)
        simp [gzip.decompress_into, h1, mapPyErr] at h
  · intro hlt
    have h1 := into_tooSmall (g.compressFn (level.getD gzip.DEFAULT_COMPRESSION_LEVEL))
      input output (g.compressOut (level.getD gzip.DEFAULT_COMPRESSION_LEVEL) input)
      rfl hlt
    exact ⟨"destination buffer is too small",
      by simp [gzip.compress_into, h1, mapPyErr]⟩
  · intro w hw hlt
    have h1 := into_tooSmall g.decompressFn input output w hw hlt
    exact ⟨"destination buffer is too small",
      by simp [gzip.decompress_into, h1, mapPyErr]⟩

/-- C9: with `output_len` absent the allocating forms succeed via the
growth-retry path: the loop doubles the capacity and re-invokes the codec when
the buffer is too small, and from any starting capacity — however undersized —
it ends in the codec's full output. -/
theorem gzip_growth_retry (g : GzipCodec) (input : Bytes) (level : Option Nat) :
    (∃ k, gzip.compressRaw g input level none =
      .ok (g.compressOut (level.getD gzip.DEFAULT_COMPRESSION_LEVEL) input, k)) ∧
    (∀ w, g.decompressOut input = .ok w →
      ∃ k, gzip.decompressRaw g input none = .ok (w, k)) ∧
    (∀ (w : Bytes) (cap a : Nat), cap < w.length →
      growFrom w cap a = growFrom w (max 1 (2 * cap)) (a + 1)) ∧
    (∀ (w : Bytes) (cap a : Nat), ∃ k, growFrom w cap a = (w, k)) := by
  refine ⟨?_, ?_, growFrom_step, growFrom_ok⟩
  · obtain ⟨k, hk⟩ := alloc_none_ok
      (g.compressFn (level.getD gzip.DEFAULT_COMPRESSION_LEVEL)) input
      (g.compressOut (level.getD gzip.DEFAULT_COMPRESSION_LEVEL) input)
      compressionSizeHint rfl
    exact ⟨k, by simp [gzip.compressRaw, hk, mapPyErr]⟩
  · intro w hw
    obtain ⟨k, hk⟩ := alloc_none_ok g.decompressFn input w
      (decompressionSizeHint input) hw
    exact ⟨k, by simp [gzip.decompressRaw, hk, mapPyErr]⟩

/-- C10: constructing a streaming `Compressor` never fails: for every level,
`None` included, `__init__` returns a `Ready` instance holding a fresh encoder
over an empty internal sink, without validating the level. -/
theorem gzip_compressor_init_never_fails (g : GzipCodec) (level : Option Nat) :
    ∃ e : gzip.GzEncoder,
      gzip.Compressor.__init__ g level = .ok ⟨some e⟩ ∧
      e.codec = g ∧ e.level = level.getD gzip.DEFAULT_COMPRESSION_LEVEL ∧
      e.fed = [] ∧ e.sink = [] :=
  ⟨_, rfl, rfl, rfl, rfl, rfl⟩
